import Mathlib

/-!
Verification of the goimapsync reconciliation engine against its
natural-language specification.  The definitions below are a shallow
embedding of the Go source (client.go, config.go, and the DB module):
pure helpers become Lean functions, the filesystem and the index are
explicit state values, and the IMAP dialogue of Move/MoveMessage is
modelled as the list of commands issued.  Machine integers are `Nat`
with explicit `% 2^32` where the Go code relies on 32-bit wrap-around
(the MD5 core).
-/

set_option linter.unusedVariables false
set_option maxRecDepth 100000

namespace Goimapsync

/-! ### MD5 (crypto/md5), used by `md5hash` in client.go.
The fingerprint of a message is the lowercase-hex MD5 digest of its
Message-ID bytes.  This is a byte-level implementation of RFC 1321 over
`Nat` values `< 2^32`. -/

/-- The 64 MD5 sine-table constants. -/
def md5K : List Nat :=
  [0xd76aa478, 0xe8c7b756, 0x242070db, 0xc1bdceee,
   0xf57c0faf, 0x4787c62a, 0xa8304613, 0xfd469501,
   0x698098d8, 0x8b44f7af, 0xffff5bb1, 0x895cd7be,
   0x6b901122, 0xfd987193, 0xa679438e, 0x49b40821,
   0xf61e2562, 0xc040b340, 0x265e5a51, 0xe9b6c7aa,
   0xd62f105d, 0x02441453, 0xd8a1e681, 0xe7d3fbc8,
   0x21e1cde6, 0xc33707d6, 0xf4d50d87, 0x455a14ed,
   0xa9e3e905, 0xfcefa3f8, 0x676f02d9, 0x8d2a4c8a,
   0xfffa3942, 0x8771f681, 0x6d9d6122, 0xfde5380c,
   0xa4beea44, 0x4bdecfa9, 0xf6bb4b60, 0xbebfbc70,
   0x289b7ec6, 0xeaa127fa, 0xd4ef3085, 0x04881d05,
   0xd9d4d039, 0xe6db99e5, 0x1fa27cf8, 0xc4ac5665,
   0xf4292244, 0x432aff97, 0xab9423a7, 0xfc93a039,
   0x655b59c3, 0x8f0ccc92, 0xffeff47d, 0x85845dd1,
   0x6fa87e4f, 0xfe2ce6e0, 0xa3014314, 0x4e0811a1,
   0xf7537e82, 0xbd3af235, 0x2ad7d2bb, 0xeb86d391]

/-- The 64 per-round left-rotation amounts. -/
def md5S : List Nat :=
  [7, 12, 17, 22, 7, 12, 17, 22, 7, 12, 17, 22, 7, 12, 17, 22,
   5,  9, 14, 20, 5,  9, 14, 20, 5,  9, 14, 20, 5,  9, 14, 20,
   4, 11, 16, 23, 4, 11, 16, 23, 4, 11, 16, 23, 4, 11, 16, 23,
   6, 10, 15, 21, 6, 10, 15, 21, 6, 10, 15, 21, 6, 10, 15, 21]

/-- 32-bit left rotation. -/
def rotl32 (x c : Nat) : Nat :=
  ((x <<< c) ||| (x >>> (32 - c))) % 4294967296

/-- Bitwise complement within 32 bits. -/
def not32 (x : Nat) : Nat := 4294967295 ^^^ x

/-- Assemble a little-endian 32-bit word from 4 bytes of a chunk. -/
def md5Word (chunk : List Nat) (k : Nat) : Nat :=
  chunk.getD k 0 + 256 * chunk.getD (k + 1) 0 +
    65536 * chunk.getD (k + 2) 0 + 16777216 * chunk.getD (k + 3) 0

/-- One of the 64 MD5 mixing steps. -/
def md5Mix (M : List Nat) (st : Nat × Nat × Nat × Nat) (i : Nat) :
    Nat × Nat × Nat × Nat :=
  let A := st.1
  let B := st.2.1
  let C := st.2.2.1
  let D := st.2.2.2
  let fg : Nat × Nat :=
    if i < 16 then ((B &&& C) ||| (not32 B &&& D), i)
    else if i < 32 then ((D &&& B) ||| (not32 D &&& C), (5 * i + 1) % 16)
    else if i < 48 then (B ^^^ C ^^^ D, (3 * i + 5) % 16)
    else (C ^^^ (B ||| not32 D), (7 * i) % 16)
  let f := (fg.1 + A + md5K.getD i 0 + M.getD fg.2 0) % 4294967296
  (D, (B + rotl32 f (md5S.getD i 0)) % 4294967296, B, C)

/-- Process one 64-byte chunk, updating the running state. -/
def md5Chunk (st : Nat × Nat × Nat × Nat) (chunk : List Nat) :
    Nat × Nat × Nat × Nat :=
  let M := (List.range 16).map (fun j => md5Word chunk (4 * j))
  let r := (List.range 64).foldl (md5Mix M) st
  ((st.1 + r.1) % 4294967296, (st.2.1 + r.2.1) % 4294967296,
   (st.2.2.1 + r.2.2.1) % 4294967296, (st.2.2.2 + r.2.2.2) % 4294967296)

/-- Little-endian bytes of a 64-bit quantity. -/
def le8 (n : Nat) : List Nat :=
  (List.range 8).map (fun i => (n >>> (8 * i)) % 256)

/-- Little-endian bytes of a 32-bit quantity. -/
def le4 (n : Nat) : List Nat :=
  [n % 256, (n >>> 8) % 256, (n >>> 16) % 256, (n >>> 24) % 256]

/-- MD5 padding: `0x80`, zeros to 56 mod 64, then the 64-bit bit length. -/
def md5Pad (msg : List Nat) : List Nat :=
  let k := (119 - msg.length % 64) % 64
  msg ++ [128] ++ List.replicate k 0 ++ le8 (8 * msg.length)

/-- Split a byte list into its first `k` 64-byte chunks (the padded
input length is a multiple of 64, and `k` is that length over 64 at
the call site). -/
def toChunks : Nat → List Nat → List (List Nat)
  | 0, _ => []
  | Nat.succ k, l => l.take 64 :: toChunks k (l.drop 64)

/-- Serialize the final MD5 state as 16 digest bytes. -/
def md5StateBytes (st : Nat × Nat × Nat × Nat) : List Nat :=
  le4 st.1 ++ le4 st.2.1 ++ le4 st.2.2.1 ++ le4 st.2.2.2

/-- The 16 MD5 digest bytes of a byte message. -/
def md5Bytes (msg : List Nat) : List Nat :=
  let padded := md5Pad msg
  md5StateBytes ((toChunks (padded.length / 64) padded).foldl md5Chunk
    (0x67452301, 0xefcdab89, 0x98badcfe, 0x10325476))

/-- Lowercase hex digit for a nibble. -/
def hexDigit (n : Nat) : Char :=
  if n = 0 then '0' else if n = 1 then '1' else if n = 2 then '2'
  else if n = 3 then '3' else if n = 4 then '4' else if n = 5 then '5'
  else if n = 6 then '6' else if n = 7 then '7' else if n = 8 then '8'
  else if n = 9 then '9' else if n = 10 then 'a' else if n = 11 then 'b'
  else if n = 12 then 'c' else if n = 13 then 'd' else if n = 14 then 'e'
  else 'f'

/-- Two lowercase hex digits of a byte (hex.EncodeToString). -/
def hexByte (b : Nat) : List Char := [hexDigit (b / 16), hexDigit (b % 16)]

/-- UTF-8 bytes of one character (Go `[]byte(string)` encoding). -/
def utf8Bytes (c : Char) : List Nat :=
  let n := c.toNat
  if n < 128 then [n]
  else if n < 2048 then [192 ||| (n >>> 6), 128 ||| (n &&& 63)]
  else if n < 65536 then
    [224 ||| (n >>> 12), 128 ||| ((n >>> 6) &&& 63), 128 ||| (n &&& 63)]
  else
    [240 ||| (n >>> 18), 128 ||| ((n >>> 12) &&& 63),
     128 ||| ((n >>> 6) &&& 63), 128 ||| (n &&& 63)]

/-- Bytes of a string, as Go's `[]byte(s)`. -/
def strBytes (s : String) : List Nat := (s.data.map utf8Bytes).flatten

/-- `md5hash` from client.go: lowercase-hex MD5 of the message id. -/
def md5hash (mid : String) : String :=
  String.mk (((md5Bytes (strBytes mid)).map hexByte).flatten)

/-! ### Data model (client.go, config.go) -/

/-- The `Message` structure of client.go (second, current version). -/
structure Message where
  Path : String := ""
  MessageId : String := ""
  Flags : List String := []
  Imap : String := ""
  Subject : String := ""
  SeqNumber : Nat := 0
  HashId : String := ""
deriving Repr, DecidableEq

/-- A row of the `messages` table created by the DB module:
`(timestamp, hid UNIQUE, mid UNIQUE, path, imap)`. -/
structure IndexRow where
  tstamp : Nat
  hid : String
  mid : String
  path : String
  imap : String
deriving Repr, DecidableEq

/-- The configuration fields of config.go that the engine reads. -/
structure Cfg where
  maildir : String
  commonInbox : Bool
deriving Repr, DecidableEq

/-- A parsed RFC-822 message as `net/mail.ReadMessage` returns it:
a header map (key to value list) and a body.  `writeMail` renders one
header line per key, space-joining the values. -/
structure Mail where
  headers : List (String × List String)
  body : String
deriving Repr, DecidableEq

/-- One message streamed by the IMAP fetch.  `envelope = none` models
a `nil` message or a `nil` envelope; otherwise it carries
`(MessageId, Subject)`.  `body = none` models a body reader on which
`mail.ReadMessage` fails. -/
structure ImapMsg where
  envelope : Option (String × String)
  flags : List String
  body : Option Mail
deriving Repr, DecidableEq

/-- The on-disk state of one resolved Maildir folder: the files
(name, content) in each of its three subdirectories. -/
structure MaildirFolder where
  cur : List (String × String) := []
  new : List (String × String) := []
  tmp : List (String × String) := []
deriving Repr, DecidableEq

/-- The mutable state a fetch run touches: the Maildir folder and the
index table. -/
structure FetchState where
  fs : MaildirFolder
  idx : List IndexRow
deriving Repr, DecidableEq

/-! ### String helpers mirroring the Go standard library calls -/

/-- Go `strings.Split(s, sep)` for a one-character separator, on the
character list of the string. -/
def splitOnChar (sep : Char) : List Char → List (List Char)
  | [] => [[]]
  | c :: rest =>
    if c = sep then [] :: splitOnChar sep rest
    else
      match splitOnChar sep rest with
      | [] => [[c]]
      | t :: ts => (c :: t) :: ts

/-- `strings.Split(s, ".")` as used by `readMaildir`. -/
def splitDot (s : String) : List String :=
  (splitOnChar '.' s.data).map String.mk

/-- `strings.Replace(s, "/", ".", -1)` from `readMaildir`. -/
def replaceSlashDot (s : String) : String :=
  String.mk (s.data.map (fun c => if c = '/' then '.' else c))

/-- Go `strings.ToLower` for the ASCII names compared here, on the
character list of the string. -/
def lowerStr (s : String) : String :=
  String.mk (s.data.map Char.toLower)

/-- `strings.ToLower(strings.Replace(f, "\\", "", -1))`: the flag
normalization at the top of `writeMail`'s loop. -/
def normFlag (f : String) : String :=
  lowerStr (String.mk (f.data.filter (fun c => c ≠ '\\')))

/-- The flag constants of go-imap used by client.go. -/
def seenFlag : String := "\\Seen"

/-- go-imap's `RecentFlag`. -/
def recentFlag : String := "\\Recent"

/-- go-imap's `DeletedFlag`. -/
def deletedFlag : String := "\\Deleted"

/-! ### Maildir store (localFolder, readMaildir, writeMail) -/

/-- `localFolder` from client.go: resolve the on-disk folder for a
server name and folder. -/
def localFolder (cfg : Cfg) (imapName folder : String) : String :=
  if imapName = "" then folder
  else if lowerStr folder = "inbox" ∧ cfg.commonInbox then folder
  else imapName ++ "/" ++ folder

/-- One iteration of the flag-letter loop of `writeMail`: Seen→S,
Recent→N, Answered→A, Junk→J, anything else skipped (`continue`). -/
def flagStep (acc f : String) : String :=
  let nf := normFlag f
  if nf = "seen" then acc ++ "S"
  else if nf = "recent" then acc ++ "N"
  else if nf = "answered" then acc ++ "A"
  else if nf = "junk" then acc ++ "J"
  else acc

/-- The flag-letter accumulation loop of `writeMail`, in source
order. -/
def flagLetters (flags : List String) : String :=
  flags.foldl flagStep ""

/-- The final flag string of `writeMail` (default "S" when empty). -/
def writeFlag (flags : List String) : String :=
  let flag := flagLetters flags
  if flag = "" then "S" else flag

/-- The file name `writeMail` builds and whether the file is routed to
`new/` (`strings.Contains(flag, "N")`) instead of `cur/`. -/
def mailFileName (hid : String) (flags : List String) (host : String)
    (ts : Nat) : String × Bool :=
  let flag := writeFlag flags
  let toNew := 'N' ∈ flag.data
  if toNew then (toString ts ++ "." ++ hid ++ "." ++ host, true)
  else (toString ts ++ "." ++ hid ++ "." ++ host ++ ":2," ++ flag, false)

/-- Error injection for one `writeMail` invocation: whether
`os.Create` succeeds, the index of the first header line whose
`WriteString` fails (if any), whether `ioutil.ReadAll(msg.Body)`
succeeds and whether the final `Write(body)` succeeds. -/
structure WriteOutcome where
  createOk : Bool
  headerFailAt : Option Nat
  bodyReadOk : Bool
  bodyWriteOk : Bool
deriving Repr, DecidableEq

/-- The all-successful outcome. -/
def allOk : WriteOutcome :=
  { createOk := true, headerFailAt := none, bodyReadOk := true,
    bodyWriteOk := true }

/-- One rendered header line of `writeMail`. -/
def headerLine (kv : String × List String) : String :=
  kv.1 ++ ": " ++ String.intercalate " " kv.2 ++ "\n"

/-- The bytes `writeMail` has written into the created file when the
function returns, for a given parse result and error injection.
`parsed = none` models `mail.ReadMessage` failing: the file stays
empty.  A header-write failure at line `i` leaves the first `i`
lines; a body-read failure silently omits the body; a body-write
failure leaves the headers. -/
def writeMailContent (parsed : Option Mail) (o : WriteOutcome) : String :=
  match parsed with
  | none => ""
  | some mail =>
    let lines := mail.headers.map headerLine
    let wrote := match o.headerFailAt with
      | some i => min i lines.length
      | none => lines.length
    if wrote < lines.length then String.join (lines.take wrote)
    else
      let hdr := String.join lines
      if o.bodyReadOk then
        (if o.bodyWriteOk then hdr ++ mail.body else hdr)
      else hdr

/-- The complete rendering of a message, as a fully successful
`writeMail` stores it. -/
def renderMail (m : Mail) : String := writeMailContent (some m) allOk

/-- `writeMail` from client.go as a Maildir-state transformer.  The
target path already existing makes the call a no-op; a failing
`os.Create` leaves the state unchanged; otherwise the file is created
at the target and holds whatever was written before the first error. -/
def writeMail (cfg : Cfg) (imapName folder hid : String)
    (flags : List String) (parsed : Option Mail) (host : String)
    (ts : Nat) (o : WriteOutcome) (fs : MaildirFolder) : MaildirFolder :=
  let fn := mailFileName hid flags host ts
  let dirFiles := if fn.2 then fs.new else fs.cur
  if dirFiles.any (fun f => f.1 = fn.1) then fs
  else if o.createOk = false then fs
  else
    let content := writeMailContent parsed o
    if fn.2 then { fs with new := fs.new ++ [(fn.1, content)] }
    else { fs with cur := fs.cur ++ [(fn.1, content)] }

/-! ### readMaildir: the fingerprint → path map -/

/-- Last-written-wins lookup, the behaviour of a Go map built by
successive assignments. -/
def mlookup (m : List (String × String)) (k : String) : Option String :=
  m.foldl (fun acc p => if p.1 = k then some p.2 else acc) none

/-- The `(key, full path)` pairs `readMaildir` produces, in insertion
order: for each of `cur/`, `new/`, `tmp/` and each file, the full path
is split on `.` and index 1 of the result is the key. -/
def dirEntries (cfg : Cfg) (imapName folder : String)
    (fs : MaildirFolder) : List (String × String) :=
  let folder := replaceSlashDot folder
  let fdir := localFolder cfg imapName folder
  let entriesOf := fun (d : String) (files : List (String × String)) =>
    files.map (fun f =>
      let fname := cfg.maildir ++ "/" ++ fdir ++ "/" ++ d ++ "/" ++ f.1
      ((splitDot fname).getD 1 "", fname))
  entriesOf "cur" fs.cur ++ entriesOf "new" fs.new ++ entriesOf "tmp" fs.tmp

/-- `readMaildir` from client.go: the map it returns, with Go-map
overwrite (later entries win on lookup). -/
def readMaildirMap (cfg : Cfg) (imapName folder : String)
    (fs : MaildirFolder) : List (String × String) :=
  dirEntries cfg imapName folder fs

/-! ### Index (DB module): the `messages` table -/

/-- `findMessage` of the DB module: the first row whose `hid` matches. -/
def findRow (idx : List IndexRow) (h : String) : Option IndexRow :=
  idx.find? (fun r => r.hid = h)

/-- `insertMessage` of the DB module: a transactional INSERT that
fails (and writes nothing) on a UNIQUE violation of `hid` or `mid`. -/
def insertMessage (idx : List IndexRow) (ts : Nat) (m : Message) :
    Except String (List IndexRow) :=
  if idx.any (fun r => r.hid = m.HashId ∨ r.mid = m.MessageId) then
    Except.error "UNIQUE constraint failed"
  else
    Except.ok (idx ++ [{ tstamp := ts, hid := m.HashId, mid := m.MessageId,
                         path := m.Path, imap := m.Imap }])

/-- `deleteMessage` of the DB module: remove every row with the given
`hid` (idempotent; deleting a missing row succeeds). -/
def deleteMessage (idx : List IndexRow) (h : String) : List IndexRow :=
  idx.filter (fun r => r.hid ≠ h)

/-! ### Fetch pipeline (imapSnapshot + writeMail workers)

`imapSnapshot(c, imapName, folder, newMessages, writeContent)` selects
the folder, builds the sequence set (a search for messages without the
Seen flag when `newMessages`, else the full range), and consumes the
fetch stream.  The `inbox` parameter below is the streamed message
list of that fetch.  Per streamed message: a `nil` message or
envelope is skipped (without consuming a sequence number); otherwise
the fingerprint is `md5hash` of the Message-ID and, when
`writeContent` is set, a message whose fingerprint is already a key of
the `readMaildir` map is not written, while any other message is
handed to a `writeMail` worker (with the Recent flag appended first
when `newMessages`).  The index is never touched by this pipeline. -/

/-- Fold state of the stream-consuming loop: the next sequence
number, the observed `Message` list, and the mutable state. -/
structure SnapAcc where
  seq : Nat
  msgs : List Message
  st : FetchState
deriving Repr, DecidableEq

/-- One iteration of the `for msg := range messages` loop of
`imapSnapshot`. -/
def snapStep (cfg : Cfg) (imapName folder : String)
    (newMessages writeContent : Bool) (mdict : List (String × String))
    (host : String) (ts : Nat) (acc : SnapAcc) (msg : ImapMsg) : SnapAcc :=
  match msg.envelope with
  | none => acc
  | some (mid, sub) =>
    let hid := md5hash mid
    if writeContent then
      if (mlookup mdict hid).isSome then
        { seq := acc.seq + 1,
          msgs := acc.msgs ++
            [{ MessageId := mid, Flags := msg.flags, Imap := imapName,
               Subject := sub, SeqNumber := acc.seq, HashId := hid }],
          st := acc.st }
      else
        let flags := if newMessages then msg.flags ++ [recentFlag]
                     else msg.flags
        { seq := acc.seq + 1,
          msgs := acc.msgs ++
            [{ MessageId := mid, Flags := flags, Imap := imapName,
               Subject := sub, SeqNumber := acc.seq, HashId := hid }],
          st := { acc.st with
                  fs := writeMail cfg imapName folder hid flags msg.body
                          host ts allOk acc.st.fs } }
    else
      { seq := acc.seq + 1,
        msgs := acc.msgs ++
          [{ MessageId := mid, Flags := msg.flags, Imap := imapName,
             Subject := sub, SeqNumber := acc.seq, HashId := hid }],
        st := acc.st }

/-- `imapSnapshot` from client.go over the streamed message list. -/
def imapSnapshot (cfg : Cfg) (imapName folder : String)
    (newMessages writeContent : Bool) (inbox : List ImapMsg)
    (host : String) (ts : Nat) (st : FetchState) : SnapAcc :=
  let mdict := if writeContent then readMaildirMap cfg imapName folder st.fs
               else []
  inbox.foldl (snapStep cfg imapName folder newMessages writeContent mdict
    host ts) { seq := 1, msgs := [], st := st }

/-! ### Sync (client.go `Sync`, `syncMails`) -/

/-- One `imapSnapshot` invocation as recorded for a trace. -/
structure SnapshotCall where
  imapName : String
  folder : String
  newMessages : Bool
  writeContent : Bool
deriving Repr, DecidableEq

/-- The message-collection step of `Sync`: every snapshot message
whose `HashId` is not a key of the maildir map is kept for deletion. -/
def syncDeleteList (snaps : List (String × List Message))
    (mdict : List (String × String)) : List Message :=
  ((snaps.map Prod.snd).flatten).filter
    (fun m => !(mlookup mdict m.HashId).isSome)

/-- `Sync` from client.go, for the `commonInbox` configuration (the
non-common branch reads one iteration-order-dependent server map).
Per server it spawns exactly one
`imapSnapshot(cl, name, "INBOX", false, false)` call; the returned
pair is the trace of those calls and the composed delete list. -/
def syncRun (cfg : Cfg) (servers : List (String × List ImapMsg))
    (host : String) (ts : Nat) (st : FetchState) :
    List SnapshotCall × List Message :=
  let mdict := readMaildirMap cfg "" "INBOX" st.fs
  let snaps := servers.map (fun p =>
    (p.1, (imapSnapshot cfg p.1 "INBOX" false false p.2 host ts st).msgs))
  (servers.map (fun p =>
     { imapName := p.1, folder := "INBOX", newMessages := false,
       writeContent := false }),
   syncDeleteList snaps mdict)

/-! ### Move / MoveMessage (client.go) as an IMAP command trace -/

/-- The IMAP commands the move path can issue. -/
inductive ImapCmd where
  | select (folder : String)
  | fetch (lo hi : Nat)
  | store (seq : Nat) (flag : String)
  | copy (seq : Nat) (folder : String)
  | expunge
deriving Repr, DecidableEq

/-- Whether a command mutates the selected mailbox. -/
def isMutation : ImapCmd → Bool
  | ImapCmd.store _ _ => true
  | ImapCmd.copy _ _ => true
  | ImapCmd.expunge => true
  | _ => false

/-- `imapFolder` from client.go: case-insensitive resolution against
the server's folder list, with `inbox`/`spam` fallbacks;
`none` models the `log.Fatalf` abort on an unresolvable name.
An empty input is returned immediately. -/
def imapFolder (folders : List String) (folder : String) : Option String :=
  if folder = "" then some folder
  else
    match folders.find? (fun f => lowerStr f = lowerStr folder) with
    | some f => some f
    | none =>
      if lowerStr folder = "inbox" then some "INBOX"
      else if lowerStr folder = "spam" then some "Spam"
      else none

/-- `MoveMessage` from client.go: the commands issued.  It selects the
inbox, stores `+FLAGS \Seen` unconditionally, copies only when the
resolved destination folder is non-empty, stores `+FLAGS \Deleted`,
and expunges; `none` models the fatal abort of folder resolution. -/
def moveMessageCmds (folders : List String) (m : Message)
    (folderName : String) : Option (List ImapCmd) :=
  match imapFolder folders "inbox" with
  | none => none
  | some inboxFolder =>
    match imapFolder folders folderName with
    | none => none
    | some folder =>
      some ([ImapCmd.select inboxFolder,
             ImapCmd.store m.SeqNumber seenFlag] ++
            (if folder ≠ "" then [ImapCmd.copy m.SeqNumber folder] else []) ++
            [ImapCmd.store m.SeqNumber deletedFlag, ImapCmd.expunge])

/-- The scan loop of `Move`: a counter starting at `seq` walks the
streamed envelopes and stops at the first Message-ID equal to
`mtch`. -/
def moveScan (mids : List String) (mtch : String) (seq : Nat) : Option Nat :=
  match mids with
  | [] => none
  | mid :: rest => if mid = mtch then some seq else moveScan rest mtch (seq + 1)

/-- `Move` from client.go: resolve the inbox and destination folder,
select the inbox, fetch envelopes of the full range `1..n`, scan for
the match, and on a hit run `MoveMessage` with the found sequence
number.  With no hit the function returns after the scan. -/
def moveCmds (folders : List String) (mids : List String)
    (mtch : String) (folderName : String) : Option (List ImapCmd) :=
  match imapFolder folders "inbox" with
  | none => none
  | some inboxFolder =>
    match imapFolder folders folderName with
    | none => none
    | some _folder =>
      let base := [ImapCmd.select inboxFolder, ImapCmd.fetch 1 mids.length]
      match moveScan mids mtch 1 with
      | none => some base
      | some seq =>
        (moveMessageCmds folders { SeqNumber := seq, MessageId := mtch }
          folderName).map (fun tail => base ++ tail)

/-- Executing a command list when the `k`-th command returns an
IMAP-level error: every `log.Fatal` in `MoveMessage`/`Move` kills the
process, so exactly the commands up to and including the failing one
were issued and the run is aborted. -/
def execCmds (cmds : List ImapCmd) (failAt : Option Nat) :
    List ImapCmd × Bool :=
  match failAt with
  | none => (cmds, false)
  | some k => if k < cmds.length then (cmds.take (k + 1), true)
              else (cmds, false)

/-! ### Spec-side definitions used to compare code with the spec -/

/-- Whether the flag list carries the Recent flag, under the same
flag spelling the code recognises (case- and backslash-insensitive). -/
def hasRecent (flags : List String) : Bool :=
  flags.any (fun f => normFlag f = "recent")

/-- One letter of the spec-side flag string: Seen→S, Answered→A,
Junk→J; everything else (Recent included) contributes nothing. -/
def specStep (acc f : String) : String :=
  if normFlag f = "seen" then acc ++ "S"
  else if normFlag f = "answered" then acc ++ "A"
  else if normFlag f = "junk" then acc ++ "J"
  else acc

/-- Spec-side flag string (§4.2 filename convention): the
concatenation, in insertion order from the source flags list, of
Seen→S, Answered→A, Junk→J; Recent is not written as a letter;
unknown flags are dropped; if no letter remains the default is "S". -/
def specFlagString (flags : List String) : String :=
  let s := flags.foldl specStep ""
  if s = "" then "S" else s

/-- Whether a key occurs in an association list (Go map membership). -/
def hasKey (m : List (String × String)) (k : String) : Bool :=
  m.any (fun p => p.1 = k)

/-- The content of the file with the given name in `new/` (when
`inNew`) or `cur/` of a Maildir folder, if present. -/
def fileAt (fs : MaildirFolder) (inNew : Bool) (fname : String) :
    Option String :=
  ((if inNew then fs.new else fs.cur).find? (fun p => p.1 = fname)).map
    (fun p => p.2)

/-- The condition under which one streamed message causes no write in
a `writeContent` pipeline run: the message has no envelope, or its
fingerprint is already a key of the scan map taken at the start of the
run. -/
def snapSkip (mdict : List (String × String)) (msg : ImapMsg) : Prop :=
  match msg.envelope with
  | none => True
  | some (mid, _) => (mlookup mdict (md5hash mid)).isSome = true

/-! ### Supporting lemmas -/

theorem digitChar_ne_dot (n : Nat) : Nat.digitChar n ≠ '.' := by
  by_cases h : n < 16
  · interval_cases n <;> decide
  · unfold Nat.digitChar
    simp only [if_neg (show ¬ n = 0 by omega), if_neg (show ¬ n = 1 by omega),
      if_neg (show ¬ n = 2 by omega), if_neg (show ¬ n = 3 by omega),
      if_neg (show ¬ n = 4 by omega), if_neg (show ¬ n = 5 by omega),
      if_neg (show ¬ n = 6 by omega), if_neg (show ¬ n = 7 by omega),
      if_neg (show ¬ n = 8 by omega), if_neg (show ¬ n = 9 by omega),
      if_neg (show ¬ n = 10 by omega), if_neg (show ¬ n = 11 by omega),
      if_neg (show ¬ n = 12 by omega), if_neg (show ¬ n = 13 by omega),
      if_neg (show ¬ n = 14 by omega), if_neg (show ¬ n = 15 by omega)]
    decide

theorem toDigitsCore_no_dot : ∀ (fuel n : Nat) (acc : List Char),
    (∀ c ∈ acc, c ≠ '.') → ∀ c ∈ Nat.toDigitsCore 10 fuel n acc, c ≠ '.' := by
  intro fuel
  induction fuel with
  | zero => intro n acc hacc c hc; exact hacc c hc
  | succ fuel ih =>
    intro n acc hacc c hc
    unfold Nat.toDigitsCore at hc
    dsimp only at hc
    split at hc
    · rw [List.mem_cons] at hc
      rcases hc with h | h
      · subst h; exact digitChar_ne_dot _
      · exact hacc c h
    · refine ih _ _ ?_ c hc
      intro c' hc'
      rw [List.mem_cons] at hc'
      rcases hc' with h | h
      · subst h; exact digitChar_ne_dot _
      · exact hacc c' h

/-- The decimal rendering of a Unix timestamp contains no dot, so the
fingerprint is always token 1 of a written file name. -/
theorem natToString_no_dot (n : Nat) : '.' ∉ (toString n).data := by
  intro h
  exact toDigitsCore_no_dot (n + 1) n [] (by intro c hc; cases hc) '.' h rfl

theorem mlookup_foldl_isSome (k : String) :
    ∀ (m : List (String × String)) (acc : Option String),
    (m.foldl (fun acc p => if p.1 = k then some p.2 else acc) acc).isSome =
      (acc.isSome || m.any (fun p => p.1 = k)) := by
  intro m
  induction m with
  | nil => intro acc; simp
  | cons p m ih =>
    intro acc
    simp only [List.foldl_cons, List.any_cons, ih]
    by_cases h : p.1 = k <;> simp [h]

/-- A `readMaildir` map lookup succeeds exactly when some entry has
the key. -/
theorem mlookup_isSome (m : List (String × String)) (k : String) :
    (mlookup m k).isSome = hasKey m k := by
  simp [mlookup, hasKey, mlookup_foldl_isSome]

theorem splitOnChar_ne_nil (sep : Char) (l : List Char) :
    splitOnChar sep l ≠ [] := by
  cases l with
  | nil => simp [splitOnChar]
  | cons c rest =>
    unfold splitOnChar
    by_cases h : c = sep
    · simp [h]
    · simp only [if_neg h]
      rcases hr : splitOnChar sep rest with _ | ⟨t, ts⟩ <;> simp

theorem splitOnChar_append (sep : Char) (a b : List Char) (h : sep ∉ a) :
    splitOnChar sep (a ++ sep :: b) = a :: splitOnChar sep b := by
  induction a with
  | nil => simp [splitOnChar]
  | cons c a ih =>
    have hc : c ≠ sep := by
      intro hcs; exact h (hcs ▸ List.mem_cons_self c a)
    have ha : sep ∉ a := fun hm => h (List.mem_cons_of_mem c hm)
    have key : splitOnChar sep (c :: (a ++ sep :: b)) =
        match splitOnChar sep (a ++ sep :: b) with
        | [] => [[c]]
        | t :: ts => (c :: t) :: ts := by
      conv_lhs => unfold splitOnChar
      rw [if_neg hc]
    rw [List.cons_append, key, ih ha]

/-- Token 1 (0-based) of a dot-split string whose data decomposes as
`pre ++ '.' :: mid ++ '.' :: rest` with dot-free `pre` and `mid`. -/
theorem splitDot_getD_key (s : String) (pre mid rest : List Char)
    (hs : s.data = pre ++ '.' :: (mid ++ '.' :: rest))
    (h1 : '.' ∉ pre) (h2 : '.' ∉ mid) :
    (splitDot s).getD 1 "" = String.mk mid := by
  unfold splitDot
  rw [hs, splitOnChar_append _ _ _ h1, splitOnChar_append _ _ _ h2]
  rfl

theorem hexDigit_ne_dot (n : Nat) : hexDigit n ≠ '.' := by
  by_cases h : n < 16
  · interval_cases n <;> decide
  · unfold hexDigit
    simp only [if_neg (show ¬ n = 0 by omega), if_neg (show ¬ n = 1 by omega),
      if_neg (show ¬ n = 2 by omega), if_neg (show ¬ n = 3 by omega),
      if_neg (show ¬ n = 4 by omega), if_neg (show ¬ n = 5 by omega),
      if_neg (show ¬ n = 6 by omega), if_neg (show ¬ n = 7 by omega),
      if_neg (show ¬ n = 8 by omega), if_neg (show ¬ n = 9 by omega),
      if_neg (show ¬ n = 10 by omega), if_neg (show ¬ n = 11 by omega),
      if_neg (show ¬ n = 12 by omega), if_neg (show ¬ n = 13 by omega),
      if_neg (show ¬ n = 14 by omega)]
    decide

/-- A fingerprint never contains a dot: its characters are hex
digits. -/
theorem md5hash_no_dot (s : String) : '.' ∉ (md5hash s).data := by
  intro h
  unfold md5hash at h
  rw [show (String.mk (((md5Bytes (strBytes s)).map hexByte).flatten)).data =
        ((md5Bytes (strBytes s)).map hexByte).flatten from rfl] at h
  rw [List.mem_flatten] at h
  rcases h with ⟨l, hl, hc⟩
  rw [List.mem_map] at hl
  rcases hl with ⟨b, _, rfl⟩
  unfold hexByte at hc
  rw [List.mem_cons, List.mem_cons] at hc
  rcases hc with h | h | h
  · exact hexDigit_ne_dot _ h.symm
  · exact hexDigit_ne_dot _ h.symm
  · cases h

theorem hexFlatten_length (bs : List Nat) :
    ((bs.map hexByte).flatten).length = 2 * bs.length := by
  induction bs with
  | nil => rfl
  | cons b bs ih => simp [hexByte, ih]; omega

theorem md5StateBytes_length (st : Nat × Nat × Nat × Nat) :
    (md5StateBytes st).length = 16 := by
  rcases st with ⟨a, b, c, d⟩
  rfl

/-- A fingerprint is always 32 characters long. -/
theorem md5hash_length (s : String) : (md5hash s).length = 32 := by
  show (((md5Bytes (strBytes s)).map hexByte).flatten).length = 32
  rw [hexFlatten_length]
  unfold md5Bytes
  rw [md5StateBytes_length]

/-- A fingerprint is never the empty string. -/
theorem md5hash_ne_empty (s : String) : md5hash s ≠ "" := by
  intro h
  have := md5hash_length s
  rw [h] at this
  exact absurd this (by decide)

theorem flagStep_acc (acc f : String) :
    flagStep acc f = acc ++ flagStep "" f := by
  unfold flagStep
  dsimp only
  repeat' split
  all_goals simp [String.empty_append, String.append_empty]

theorem specStep_acc (acc f : String) :
    specStep acc f = acc ++ specStep "" f := by
  unfold specStep
  repeat' split
  all_goals simp [String.empty_append, String.append_empty]

theorem foldl_flagStep_acc (l : List String) :
    ∀ acc, l.foldl flagStep acc = acc ++ l.foldl flagStep "" := by
  induction l with
  | nil => intro acc; simp [String.append_empty]
  | cons f l ih =>
    intro acc
    rw [List.foldl_cons, List.foldl_cons, ih (flagStep acc f),
      ih (flagStep "" f), flagStep_acc acc f, String.append_assoc]

theorem foldl_specStep_acc (l : List String) :
    ∀ acc, l.foldl specStep acc = acc ++ l.foldl specStep "" := by
  induction l with
  | nil => intro acc; simp [String.append_empty]
  | cons f l ih =>
    intro acc
    rw [List.foldl_cons, List.foldl_cons, ih (specStep acc f),
      ih (specStep "" f), specStep_acc acc f, String.append_assoc]

theorem flagLetters_cons (f : String) (l : List String) :
    flagLetters (f :: l) = flagStep "" f ++ flagLetters l := by
  unfold flagLetters
  rw [List.foldl_cons, foldl_flagStep_acc]

theorem flagStep_one_N (f : String) :
    'N' ∈ (flagStep "" f).data ↔ normFlag f = "recent" := by
  unfold flagStep
  dsimp only
  repeat' split
  all_goals simp_all [String.empty_append]
  all_goals decide

/-- The flag string of `writeMail` contains an `N` exactly when the
source flag list carries the Recent flag. -/
theorem flagLetters_N (flags : List String) :
    'N' ∈ (flagLetters flags).data ↔ hasRecent flags = true := by
  induction flags with
  | nil => simp [flagLetters, hasRecent]
  | cons f l ih =>
    rw [flagLetters_cons]
    rw [String.data_append, List.mem_append]
    simp only [hasRecent, List.any_cons, Bool.or_eq_true, decide_eq_true_eq]
    rw [flagStep_one_N]
    constructor
    · rintro (h | h)
      · exact Or.inl h
      · exact Or.inr (by simpa [hasRecent] using ih.mp h)
    · rintro (h | h)
      · exact Or.inl h
      · exact Or.inr (by simpa [hasRecent] using ih.mpr (by simpa [hasRecent] using h))

theorem flagStep_eq_specStep (f : String) (h : ¬normFlag f = "recent") :
    flagStep "" f = specStep "" f := by
  unfold flagStep specStep
  dsimp only
  by_cases h1 : normFlag f = "seen"
  · simp [h1]
  · by_cases h2 : normFlag f = "answered"
    · have : ¬normFlag f = "seen" := h1
      simp [h1, h2, h]
    · by_cases h3 : normFlag f = "junk" <;> simp [h1, h2, h3, h]

/-- Without a Recent flag, the letter loop of `writeMail` computes
exactly the spec-side S/A/J concatenation. -/
theorem flagLetters_eq_spec (flags : List String)
    (h : hasRecent flags = false) :
    flagLetters flags = flags.foldl specStep "" := by
  induction flags with
  | nil => rfl
  | cons f l ih =>
    have hf : ¬normFlag f = "recent" := by
      intro hf
      simp [hasRecent, hf] at h
    have hl : hasRecent l = false := by
      simp only [hasRecent, List.any_cons, Bool.or_eq_false_iff] at h
      exact h.2
    rw [flagLetters_cons, List.foldl_cons, foldl_specStep_acc,
      flagStep_eq_specStep f hf, ih hl]

/-- Without a Recent flag, `writeMail`'s final flag string equals the
spec's flag string (including the "S" default). -/
theorem writeFlag_eq_spec (flags : List String)
    (h : hasRecent flags = false) :
    writeFlag flags = specFlagString flags := by
  unfold writeFlag specFlagString
  rw [flagLetters_eq_spec flags h]

/-- `writeMail` routes to `new/` exactly when Recent is present. -/
theorem writeFlag_N (flags : List String) :
    ('N' ∈ (writeFlag flags).data) ↔ hasRecent flags = true := by
  unfold writeFlag
  dsimp only
  split
  · constructor
    · intro h; exact absurd h (by decide)
    · intro h
      rename_i hempty
      exact absurd (flagLetters_N flags |>.mpr h)
        (by rw [hempty]; decide)
  · exact flagLetters_N flags

theorem map_slash_id (l : List Char) (h : '/' ∉ l) :
    l.map (fun c => if c = '/' then '.' else c) = l := by
  induction l with
  | nil => rfl
  | cons c t ih =>
    have hc : c ≠ '/' := fun hcs => h (hcs ▸ List.mem_cons_self c t)
    have ht : '/' ∉ t := fun hm => h (List.mem_cons_of_mem c hm)
    simp [hc, ih ht]

theorem replaceSlashDot_id (s : String) (h : '/' ∉ s.data) :
    replaceSlashDot s = s := by
  unfold replaceSlashDot
  rw [map_slash_id s.data h]

theorem localFolder_no_dot (cfg : Cfg) (n f : String)
    (h2 : '.' ∉ n.data) (h3 : '.' ∉ f.data) :
    '.' ∉ (localFolder cfg n f).data := by
  unfold localFolder
  split
  · exact h3
  · split
    · exact h3
    · rw [String.data_append, String.data_append]
      intro hm
      rcases List.mem_append.mp hm with hm | hm
      · rcases List.mem_append.mp hm with hm | hm
        · exact h2 hm
        · exact absurd hm (by decide)
      · exact h3 hm

/-- The root directory path `<maildir>/<fdir>/<d>` used by
`readMaildir` is dot-free for a dot-free configuration. -/
theorem root_no_dot (cfg : Cfg) (n f d : String)
    (h1 : '.' ∉ cfg.maildir.data) (h2 : '.' ∉ n.data)
    (h3 : '.' ∉ f.data) (h4 : '/' ∉ f.data) (hd : '.' ∉ d.data) :
    '.' ∉ (cfg.maildir ++ "/" ++ localFolder cfg n (replaceSlashDot f) ++
            "/" ++ d).data := by
  rw [replaceSlashDot_id f h4]
  intro hm
  simp only [String.data_append] at hm
  rcases List.mem_append.mp hm with hm | hm
  · rcases List.mem_append.mp hm with hm | hm
    · rcases List.mem_append.mp hm with hm | hm
      · rcases List.mem_append.mp hm with hm | hm
        · exact h1 hm
        · exact absurd hm (by decide)
      · exact localFolder_no_dot cfg n f h2 h3 hm
    · exact absurd hm (by decide)
  · exact hd hm

theorem mailFileName_recent (hid host : String) (flags : List String)
    (ts : Nat) (h : hasRecent flags = true) :
    mailFileName hid flags host ts =
      (toString ts ++ "." ++ hid ++ "." ++ host, true) := by
  unfold mailFileName
  rw [if_pos ((writeFlag_N flags).mpr h)]

theorem mailFileName_plain (hid host : String) (flags : List String)
    (ts : Nat) (h : hasRecent flags = false) :
    mailFileName hid flags host ts =
      (toString ts ++ "." ++ hid ++ "." ++ host ++ ":2," ++ writeFlag flags,
       false) := by
  unfold mailFileName
  rw [if_neg (fun hm => by rw [(writeFlag_N flags).mp hm] at h; cases h)]

/-- Every file name `writeMail` produces decomposes as
`<ts> '.' <hid> '.' <tail>`. -/
theorem mailFileName_data (hid host : String) (flags : List String)
    (ts : Nat) :
    ∃ v, ((mailFileName hid flags host ts).1).data =
      (toString ts).data ++ '.' :: (hid.data ++ '.' :: v) := by
  rcases h : hasRecent flags with _ | _
  · refine ⟨(host ++ ":2," ++ writeFlag flags).data, ?_⟩
    rw [mailFileName_plain hid host flags ts h]
    simp [String.data_append, List.append_assoc]
  · refine ⟨host.data, ?_⟩
    rw [mailFileName_recent hid host flags ts h]
    simp [String.data_append, List.append_assoc]

/-- The scan key of a file under a dot-free root is the second
dot-token of its name. -/
theorem key_of_name (root name : String) (t u v : List Char)
    (hname : name.data = t ++ '.' :: (u ++ '.' :: v))
    (hroot : '.' ∉ root.data) (ht : '.' ∉ t) (hu : '.' ∉ u) :
    (splitDot (root ++ "/" ++ name)).getD 1 "" = String.mk u := by
  apply splitDot_getD_key _ (root.data ++ '/' :: t) u v
  · rw [String.data_append, String.data_append, hname]
    simp [List.append_assoc]
  · intro hm
    rcases List.mem_append.mp hm with hm | hm
    · exact hroot hm
    · rw [List.mem_cons] at hm
      rcases hm with hm | hm
      · exact absurd hm (by decide)
      · exact ht hm
  · exact hu

/-- A file present in any of the three subdirectories whose name has
the fingerprint as its second dot-token yields that fingerprint as a
key of the `readMaildir` map (dot-free configuration). -/
theorem hasKey_of_file (cfg : Cfg) (n f name content : String)
    (fs : MaildirFolder) (t u v : List Char)
    (h1 : '.' ∉ cfg.maildir.data) (h2 : '.' ∉ n.data)
    (h3 : '.' ∉ f.data) (h4 : '/' ∉ f.data)
    (hname : name.data = t ++ '.' :: (u ++ '.' :: v))
    (ht : '.' ∉ t) (hu : '.' ∉ u)
    (hmem : (name, content) ∈ fs.cur ∨ (name, content) ∈ fs.new ∨
            (name, content) ∈ fs.tmp) :
    hasKey (dirEntries cfg n f fs) (String.mk u) = true := by
  unfold hasKey dirEntries
  dsimp only
  rw [List.any_eq_true]
  rcases hmem with hmem | hmem | hmem
  · refine ⟨((splitDot (cfg.maildir ++ "/" ++
        localFolder cfg n (replaceSlashDot f) ++ "/" ++ "cur" ++ "/" ++
        name)).getD 1 "",
      cfg.maildir ++ "/" ++ localFolder cfg n (replaceSlashDot f) ++ "/" ++
        "cur" ++ "/" ++ name), ?_, ?_⟩
    · apply List.mem_append_left
      apply List.mem_append_left
      exact List.mem_map.mpr ⟨(name, content), hmem, rfl⟩
    · simp only [decide_eq_true_eq]
      exact key_of_name _ name t u v hname
        (root_no_dot cfg n f "cur" h1 h2 h3 h4 (by decide)) ht hu
  · refine ⟨((splitDot (cfg.maildir ++ "/" ++
        localFolder cfg n (replaceSlashDot f) ++ "/" ++ "new" ++ "/" ++
        name)).getD 1 "",
      cfg.maildir ++ "/" ++ localFolder cfg n (replaceSlashDot f) ++ "/" ++
        "new" ++ "/" ++ name), ?_, ?_⟩
    · apply List.mem_append_left
      apply List.mem_append_right
      exact List.mem_map.mpr ⟨(name, content), hmem, rfl⟩
    · simp only [decide_eq_true_eq]
      exact key_of_name _ name t u v hname
        (root_no_dot cfg n f "new" h1 h2 h3 h4 (by decide)) ht hu
  · refine ⟨((splitDot (cfg.maildir ++ "/" ++
        localFolder cfg n (replaceSlashDot f) ++ "/" ++ "tmp" ++ "/" ++
        name)).getD 1 "",
      cfg.maildir ++ "/" ++ localFolder cfg n (replaceSlashDot f) ++ "/" ++
        "tmp" ++ "/" ++ name), ?_, ?_⟩
    · apply List.mem_append_right
      exact List.mem_map.mpr ⟨(name, content), hmem, rfl⟩
    · simp only [decide_eq_true_eq]
      exact key_of_name _ name t u v hname
        (root_no_dot cfg n f "tmp" h1 h2 h3 h4 (by decide)) ht hu

/-- `writeMail` either leaves the folder unchanged or appends exactly
one file, named by `mailFileName`, to `new/` or `cur/`. -/
theorem writeMail_cases (cfg : Cfg) (n f hid : String)
    (flags : List String) (parsed : Option Mail) (host : String)
    (ts : Nat) (o : WriteOutcome) (fs : MaildirFolder) :
    writeMail cfg n f hid flags parsed host ts o fs = fs ∨
    (∃ content,
      ((mailFileName hid flags host ts).2 = true ∧
        writeMail cfg n f hid flags parsed host ts o fs =
          { fs with new := fs.new ++
              [((mailFileName hid flags host ts).1, content)] }) ∨
      ((mailFileName hid flags host ts).2 = false ∧
        writeMail cfg n f hid flags parsed host ts o fs =
          { fs with cur := fs.cur ++
              [((mailFileName hid flags host ts).1, content)] })) := by
  unfold writeMail
  dsimp only
  split
  · rename_i hN
    split
    · exact Or.inl rfl
    · split
      · exact Or.inl rfl
      · exact Or.inr ⟨writeMailContent parsed o, Or.inl ⟨hN, rfl⟩⟩
  · rename_i hN
    split
    · exact Or.inl rfl
    · split
      · exact Or.inl rfl
      · exact Or.inr ⟨writeMailContent parsed o,
          Or.inr ⟨Bool.not_eq_true _ ▸ hN, rfl⟩⟩

/-- Keys of the `readMaildir` map survive any `writeMail`. -/
theorem hasKey_writeMail_mono (cfg : Cfg) (n f hid : String)
    (flags : List String) (parsed : Option Mail) (host : String)
    (ts : Nat) (o : WriteOutcome) (fs : MaildirFolder) (k : String)
    (h : hasKey (dirEntries cfg n f fs) k = true) :
    hasKey (dirEntries cfg n f
      (writeMail cfg n f hid flags parsed host ts o fs)) k = true := by
  rcases writeMail_cases cfg n f hid flags parsed host ts o fs with
    hw | ⟨content, ⟨_, hw⟩ | ⟨_, hw⟩⟩ <;> rw [hw]
  · exact h
  · unfold hasKey dirEntries at h ⊢
    dsimp only at h ⊢
    rw [List.any_eq_true] at h ⊢
    rcases h with ⟨p, hp, hpk⟩
    refine ⟨p, ?_, hpk⟩
    rw [List.map_append]
    rcases List.mem_append.mp hp with hAB | hC
    · rcases List.mem_append.mp hAB with hA | hB
      · exact List.mem_append_left _ (List.mem_append_left _ hA)
      · exact List.mem_append_left _
          (List.mem_append_right _ (List.mem_append_left _ hB))
    · exact List.mem_append_right _ hC
  · unfold hasKey dirEntries at h ⊢
    dsimp only at h ⊢
    rw [List.any_eq_true] at h ⊢
    rcases h with ⟨p, hp, hpk⟩
    refine ⟨p, ?_, hpk⟩
    rw [List.map_append]
    rcases List.mem_append.mp hp with hAB | hC
    · rcases List.mem_append.mp hAB with hA | hB
      · exact List.mem_append_left _
          (List.mem_append_left _ (List.mem_append_left _ hA))
      · exact List.mem_append_left _ (List.mem_append_right _ hB)
    · exact List.mem_append_right _ hC

/-- A fresh `writeMail` (state as in the pipeline: outcome `allOk`)
leaves the target fingerprint as a key of the scan map. -/
theorem hasKey_writeMail_self (cfg : Cfg) (n f hid : String)
    (flags : List String) (parsed : Option Mail) (host : String)
    (ts : Nat) (fs : MaildirFolder)
    (h1 : '.' ∉ cfg.maildir.data) (h2 : '.' ∉ n.data)
    (h3 : '.' ∉ f.data) (h4 : '/' ∉ f.data) (hhid : '.' ∉ hid.data) :
    hasKey (dirEntries cfg n f
      (writeMail cfg n f hid flags parsed host ts allOk fs)) hid = true := by
  rcases mailFileName_data hid host flags ts with ⟨v, hdata⟩
  have hts := natToString_no_dot ts
  have key := fun (fs' : MaildirFolder) content hmem =>
    hasKey_of_file cfg n f (mailFileName hid flags host ts).1 content fs'
      (toString ts).data hid.data v h1 h2 h3 h4 hdata hts hhid hmem
  unfold writeMail
  dsimp only
  split
  · split
    · rename_i hex
      rw [List.any_eq_true] at hex
      rcases hex with ⟨⟨p1, p2⟩, hp, hpk⟩
      rw [decide_eq_true_eq] at hpk
      subst hpk
      exact key fs p2 (Or.inr (Or.inl hp))
    · split
      · rename_i hok
        exact absurd hok (by decide)
      · refine key _ (writeMailContent parsed allOk) (Or.inr (Or.inl ?_))
        dsimp only
        exact List.mem_append_right _ (List.mem_singleton.mpr rfl)
  · split
    · rename_i hex
      rw [List.any_eq_true] at hex
      rcases hex with ⟨⟨p1, p2⟩, hp, hpk⟩
      rw [decide_eq_true_eq] at hpk
      subst hpk
      exact key fs p2 (Or.inl hp)
    · split
      · rename_i hok
        exact absurd hok (by decide)
      · refine key _ (writeMailContent parsed allOk) (Or.inl ?_)
        dsimp only
        exact List.mem_append_right _ (List.mem_singleton.mpr rfl)

/-- A pipeline step whose message satisfies the skip condition leaves
the state untouched. -/
theorem snapStep_skip (cfg : Cfg) (n f : String) (nm : Bool)
    (mdict : List (String × String)) (host : String) (ts : Nat)
    (acc : SnapAcc) (msg : ImapMsg) (h : snapSkip mdict msg) :
    (snapStep cfg n f nm true mdict host ts acc msg).st = acc.st := by
  rcases hm : msg.envelope with _ | ⟨mid, sub⟩
  · unfold snapStep
    rw [hm]
  · unfold snapSkip at h
    rw [hm] at h
    dsimp only at h
    unfold snapStep
    rw [hm]
    dsimp only
    simp [h]

theorem foldl_snapStep_skip (cfg : Cfg) (n f : String) (nm : Bool)
    (mdict : List (String × String)) (host : String) (ts : Nat) :
    ∀ (l : List ImapMsg) (acc : SnapAcc), (∀ msg ∈ l, snapSkip mdict msg) →
    (l.foldl (snapStep cfg n f nm true mdict host ts) acc).st = acc.st := by
  intro l
  induction l with
  | nil => intro acc _; rfl
  | cons msg l ih =>
    intro acc h
    rw [List.foldl_cons,
      ih _ (fun m hm => h m (List.mem_cons_of_mem msg hm)),
      snapStep_skip cfg n f nm mdict host ts acc msg
        (h msg (List.mem_cons_self msg l))]

/-- No pipeline step ever touches the index. -/
theorem snapStep_idx (cfg : Cfg) (n f : String) (nm wc : Bool)
    (mdict : List (String × String)) (host : String) (ts : Nat)
    (acc : SnapAcc) (msg : ImapMsg) :
    (snapStep cfg n f nm wc mdict host ts acc msg).st.idx = acc.st.idx := by
  unfold snapStep
  rcases hm : msg.envelope with _ | ⟨mid, sub⟩
  · rfl
  · dsimp only
    split
    · split <;> rfl
    · rfl

theorem foldl_snapStep_idx (cfg : Cfg) (n f : String) (nm wc : Bool)
    (mdict : List (String × String)) (host : String) (ts : Nat) :
    ∀ (l : List ImapMsg) (acc : SnapAcc),
    (l.foldl (snapStep cfg n f nm wc mdict host ts) acc).st.idx =
      acc.st.idx := by
  intro l
  induction l with
  | nil => intro acc; rfl
  | cons msg l ih =>
    intro acc
    rw [List.foldl_cons, ih, snapStep_idx]

/-- A step of an envelopes-only run (`writeContent = false`) leaves
the whole state untouched. -/
theorem snapStep_readonly (cfg : Cfg) (n f : String) (nm : Bool)
    (mdict : List (String × String)) (host : String) (ts : Nat)
    (acc : SnapAcc) (msg : ImapMsg) :
    (snapStep cfg n f nm false mdict host ts acc msg).st = acc.st := by
  unfold snapStep
  rcases hm : msg.envelope with _ | ⟨mid, sub⟩ <;> rfl

theorem foldl_snapStep_readonly (cfg : Cfg) (n f : String) (nm : Bool)
    (mdict : List (String × String)) (host : String) (ts : Nat) :
    ∀ (l : List ImapMsg) (acc : SnapAcc),
    (l.foldl (snapStep cfg n f nm false mdict host ts) acc).st = acc.st := by
  intro l
  induction l with
  | nil => intro acc; rfl
  | cons msg l ih =>
    intro acc
    rw [List.foldl_cons, ih, snapStep_readonly]

/-- Scan-map keys survive a pipeline step. -/
theorem snapStep_mono_key (cfg : Cfg) (n f : String) (nm wc : Bool)
    (mdict : List (String × String)) (host : String) (ts : Nat)
    (acc : SnapAcc) (msg : ImapMsg) (k : String)
    (h : hasKey (dirEntries cfg n f acc.st.fs) k = true) :
    hasKey (dirEntries cfg n f
      (snapStep cfg n f nm wc mdict host ts acc msg).st.fs) k = true := by
  unfold snapStep
  rcases hm : msg.envelope with _ | ⟨mid, sub⟩
  · exact h
  · dsimp only
    split
    · split
      · exact h
      · exact hasKey_writeMail_mono cfg n f _ _ _ host ts allOk acc.st.fs k h
    · exact h

theorem foldl_snapStep_mono_key (cfg : Cfg) (n f : String) (nm wc : Bool)
    (mdict : List (String × String)) (host : String) (ts : Nat) :
    ∀ (l : List ImapMsg) (acc : SnapAcc) (k : String),
    hasKey (dirEntries cfg n f acc.st.fs) k = true →
    hasKey (dirEntries cfg n f
      (l.foldl (snapStep cfg n f nm wc mdict host ts) acc).st.fs) k =
        true := by
  intro l
  induction l with
  | nil => intro acc k h; exact h
  | cons msg l ih =>
    intro acc k h
    rw [List.foldl_cons]
    exact ih _ k (snapStep_mono_key cfg n f nm wc mdict host ts acc msg k h)

/-- After a `writeContent` run, every streamed message with an
envelope has its fingerprint among the scan-map keys of the final
state, provided the starting map keys are already present in the
starting state (dot-free configuration). -/
theorem foldl_snapStep_keys (cfg : Cfg) (n f : String) (nm : Bool)
    (mdict0 : List (String × String)) (host : String) (ts : Nat)
    (h1 : '.' ∉ cfg.maildir.data) (h2 : '.' ∉ n.data)
    (h3 : '.' ∉ f.data) (h4 : '/' ∉ f.data) :
    ∀ (l : List ImapMsg) (acc : SnapAcc),
    (∀ k, hasKey mdict0 k = true →
      hasKey (dirEntries cfg n f acc.st.fs) k = true) →
    ∀ msg ∈ l, ∀ mid sub, msg.envelope = some (mid, sub) →
    hasKey (dirEntries cfg n f
      ((l.foldl (snapStep cfg n f nm true mdict0 host ts) acc).st.fs))
      (md5hash mid) = true := by
  intro l
  induction l with
  | nil => intro acc _ msg hm; cases hm
  | cons m0 l ih =>
    intro acc hInv msg hmem mid sub hsome
    have hInv' : ∀ k, hasKey mdict0 k = true →
        hasKey (dirEntries cfg n f
          ((snapStep cfg n f nm true mdict0 host ts acc m0).st.fs)) k =
          true :=
      fun k hk =>
        snapStep_mono_key cfg n f nm true mdict0 host ts acc m0 k (hInv k hk)
    rw [List.mem_cons] at hmem
    rcases hmem with rfl | hmem
    · rw [List.foldl_cons]
      apply foldl_snapStep_mono_key
      by_cases hk : (mlookup mdict0 (md5hash mid)).isSome = true
      · have : hasKey (dirEntries cfg n f acc.st.fs) (md5hash mid) = true :=
          hInv _ (by rw [← mlookup_isSome]; exact hk)
        exact snapStep_mono_key cfg n f nm true mdict0 host ts acc msg _ this
      · unfold snapStep
        rw [hsome]
        dsimp only
        rw [if_neg hk]
        exact hasKey_writeMail_self cfg n f (md5hash mid) _ msg.body host ts
          acc.st.fs h1 h2 h3 h4 (md5hash_no_dot mid)
    · rw [List.foldl_cons]
      exact ih _ hInv' msg hmem mid sub hsome

theorem find_append_key (l : List (String × String)) (k v : String)
    (h : l.any (fun p => p.1 = k) = false) :
    (l ++ [(k, v)]).find? (fun p => p.1 = k) = some (k, v) := by
  induction l with
  | nil => simp
  | cons p l ih =>
    simp only [List.any_cons, Bool.or_eq_false_iff] at h
    rw [List.cons_append, List.find?_cons, h.1]
    exact ih h.2

theorem moveScan_none (mids : List String) (mtch : String)
    (h : mtch ∉ mids) : ∀ s, moveScan mids mtch s = none := by
  induction mids with
  | nil => intro s; rfl
  | cons mid rest ih =>
    intro s
    have hne : mid ≠ mtch := fun he => h (he ▸ List.mem_cons_self mid rest)
    unfold moveScan
    rw [if_neg hne]
    exact ih (fun hm => h (List.mem_cons_of_mem mid hm)) (s + 1)

/-! ### Claims -/

/-- Claim C5, counterexample: `writeMail` creates the file at the
target path first and only then parses and writes the message, so an
error after creation leaves a partial file at the target.  Concretely,
when every header write fails (outcome `headerFailAt = 0`) the target
file exists with empty content, which is neither the complete
well-formed message (`renderMail` of it) nor absence of the file. -/
theorem partial_file_after_header_failure_cex :
    fileAt (writeMail { maildir := "/m", commonInbox := true } "s1" "INBOX"
        "abc" [] (some { headers := [("Subject", ["hi"])], body := "B" })
        "host" 100
        { createOk := true, headerFailAt := some 0, bodyReadOk := true,
          bodyWriteOk := true }
        { cur := [], new := [], tmp := [] })
      false "100.abc.host:2,S" = some "" ∧
    renderMail { headers := [("Subject", ["hi"])], body := "B" } =
      "Subject: hi\nB" ∧
    ("" : String) ≠ "Subject: hi\nB" := by
  refine ⟨by decide, by decide, by decide⟩

/-- Claim C5 (amended): atomicity holds only around file creation:
a pre-existing target or a failed `os.Create` leaves the Maildir
unchanged, but once the file is created it exists at the target with
exactly the bytes written before the first error (empty on a parse
failure, a prefix of the header lines on a header-write failure, the
headers without body on a body read/write failure). -/
theorem write_atomic_only_at_creation (cfg : Cfg) (n f hid : String)
    (flags : List String) (parsed : Option Mail) (host : String) (ts : Nat)
    (o : WriteOutcome) (fs : MaildirFolder) :
    (((if (mailFileName hid flags host ts).2 then fs.new else fs.cur).any
        (fun p => p.1 = (mailFileName hid flags host ts).1)) = true →
      writeMail cfg n f hid flags parsed host ts o fs = fs) ∧
    (o.createOk = false →
      writeMail cfg n f hid flags parsed host ts o fs = fs) ∧
    (((if (mailFileName hid flags host ts).2 then fs.new else fs.cur).any
        (fun p => p.1 = (mailFileName hid flags host ts).1)) = false →
      o.createOk = true →
      fileAt (writeMail cfg n f hid flags parsed host ts o fs)
        (mailFileName hid flags host ts).2
        (mailFileName hid flags host ts).1 =
        some (writeMailContent parsed o)) := by
  refine ⟨fun hex => ?_, fun hco => ?_, fun hfresh hok => ?_⟩
  · unfold writeMail
    dsimp only
    rw [if_pos hex]
  · unfold writeMail
    dsimp only
    rw [if_pos hco]
    exact ite_self fs
  · rcases hR : hasRecent flags with _ | _
    · have hm := mailFileName_plain hid host flags ts hR
      rw [hm] at hfresh ⊢
      unfold writeMail fileAt
      rw [hm]
      dsimp only at hfresh ⊢
      simp only [Bool.false_eq_true, if_false] at hfresh ⊢
      rw [if_neg (by rw [hfresh]; exact Bool.false_ne_true)]
      rw [if_neg (by rw [hok]; decide)]
      dsimp only
      rw [find_append_key _ _ _ hfresh]
      rfl
    · have hm := mailFileName_recent hid host flags ts hR
      rw [hm] at hfresh ⊢
      unfold writeMail fileAt
      rw [hm]
      dsimp only at hfresh ⊢
      simp only [if_true] at hfresh ⊢
      rw [if_neg (by rw [hfresh]; exact Bool.false_ne_true)]
      rw [if_neg (by rw [hok]; decide)]
      dsimp only
      rw [find_append_key _ _ _ hfresh]
      rfl

/-- Claim C5 witness for the amended statement, at a concrete fresh
target with a successful creation. -/
theorem write_atomic_only_at_creation_witness :
    fileAt (writeMail { maildir := "/m", commonInbox := true } "s1" "INBOX"
        "abc" [] (some { headers := [("A", ["b"])], body := "B" })
        "host" 100 allOk { cur := [], new := [], tmp := [] })
      false "100.abc.host:2,S" = some "A: b\nB" := by
  have h := (write_atomic_only_at_creation
    { maildir := "/m", commonInbox := true } "s1" "INBOX" "abc" []
    (some { headers := [("A", ["b"])], body := "B" }) "host" 100 allOk
    { cur := [], new := [], tmp := [] }).2.2 (by decide) (by decide)
  rw [show (mailFileName "abc" [] "host" 100).1 = "100.abc.host:2,S"
    from by decide] at h
  rw [show (mailFileName "abc" [] "host" 100).2 = false from by decide] at h
  rw [h]
  decide

/-- Claim C6, counterexample: with an empty destination folder the
code still issues `store +FLAGS \Seen` before the Deleted store and
expunge, while the claim says that with an empty `dest_folder` both
the copy and the Seen store are skipped. -/
theorem move_empty_dest_still_stores_seen_cex :
    moveMessageCmds ["INBOX"] { SeqNumber := 1 } "" =
      some [ImapCmd.select "INBOX", ImapCmd.store 1 "\\Seen",
            ImapCmd.store 1 "\\Deleted", ImapCmd.expunge] ∧
    ImapCmd.store 1 "\\Seen" ∈
      [ImapCmd.select "INBOX", ImapCmd.store 1 "\\Seen",
       ImapCmd.store 1 "\\Deleted", ImapCmd.expunge] := by
  refine ⟨by decide, by decide⟩

/-- Claim C6 (amended): `MoveMessage` selects the inbox, then stores
`+FLAGS \Seen` unconditionally (also when the destination folder is
empty), copies only when the resolved destination folder is non-empty,
stores `+FLAGS \Deleted`, and expunges, in that order; an IMAP-level
error at any step aborts the process with exactly the commands up to
the failing one issued. -/
theorem move_message_cmd_order (folders : List String) (m : Message)
    (folderName inboxF folderR : String)
    (h1 : imapFolder folders "inbox" = some inboxF)
    (h2 : imapFolder folders folderName = some folderR) :
    moveMessageCmds folders m folderName =
      some ([ImapCmd.select inboxF, ImapCmd.store m.SeqNumber seenFlag] ++
        (if folderR ≠ "" then [ImapCmd.copy m.SeqNumber folderR] else []) ++
        [ImapCmd.store m.SeqNumber deletedFlag, ImapCmd.expunge]) ∧
    (∀ cmds k, moveMessageCmds folders m folderName = some cmds →
      k < cmds.length →
      execCmds cmds (some k) = (cmds.take (k + 1), true)) := by
  constructor
  · unfold moveMessageCmds
    rw [h1, h2]
  · intro cmds k _ hk
    unfold execCmds
    dsimp only
    rw [if_pos hk]

/-- Claim C6 witness: the amended command order at a concrete server
with a `Spam` destination. -/
theorem move_message_cmd_order_witness :
    moveMessageCmds ["INBOX", "Spam"] { SeqNumber := 2 } "spam" =
      some ([ImapCmd.select "INBOX", ImapCmd.store 2 seenFlag] ++
        (if "Spam" ≠ "" then [ImapCmd.copy 2 "Spam"] else []) ++
        [ImapCmd.store 2 deletedFlag, ImapCmd.expunge]) :=
  (move_message_cmd_order ["INBOX", "Spam"] { SeqNumber := 2 } "spam"
    "INBOX" "Spam" (by decide) (by decide)).1

/-- Claim C9, counterexample: the scan keys each file by the second
dot-token of the full path, not of the file name.  With the maildir
root `/m.dir`, the file `123.abc.host:2,S` is keyed by
`dir/INBOX/cur/123` and a lookup of its fingerprint `abc` fails,
contradicting the claim that the key is the second token of the
file's name. -/
theorem maildir_scan_dotted_root_cex :
    readMaildirMap { maildir := "/m.dir", commonInbox := true } "" "INBOX"
      { cur := [("123.abc.host:2,S", "x")], new := [], tmp := [] } =
      [("dir/INBOX/cur/123", "/m.dir/INBOX/cur/123.abc.host:2,S")] ∧
    mlookup (readMaildirMap { maildir := "/m.dir", commonInbox := true }
      "" "INBOX"
      { cur := [("123.abc.host:2,S", "x")], new := [], tmp := [] })
      "abc" = none := by
  refine ⟨by decide, by decide⟩

/-- Claim C9 (amended): the scan enumerates exactly the files of
`cur/`, `new/` and `tmp/`; every key is the second dot-token of the
file's full path; and this equals the second dot-token of the file's
name precisely under a dot-free path prefix (dot-free maildir root
and server/folder names). -/
theorem maildir_scan_key_second_token (cfg : Cfg) (n f : String)
    (fs : MaildirFolder)
    (h1 : '.' ∉ cfg.maildir.data) (h2 : '.' ∉ n.data)
    (h3 : '.' ∉ f.data) (h4 : '/' ∉ f.data) :
    (readMaildirMap cfg n f fs).length =
      fs.cur.length + fs.new.length + fs.tmp.length ∧
    (∀ k p, (k, p) ∈ readMaildirMap cfg n f fs →
      k = (splitDot p).getD 1 "") ∧
    (∀ name content, ∀ t u v : List Char,
      name.data = t ++ '.' :: (u ++ '.' :: v) → '.' ∉ t → '.' ∉ u →
      ((name, content) ∈ fs.cur ∨ (name, content) ∈ fs.new ∨
        (name, content) ∈ fs.tmp) →
      hasKey (readMaildirMap cfg n f fs) (String.mk u) = true) := by
  refine ⟨?_, ?_, ?_⟩
  · unfold readMaildirMap dirEntries
    dsimp only
    rw [List.length_append, List.length_append, List.length_map,
      List.length_map, List.length_map]
  · intro k p hmem
    unfold readMaildirMap dirEntries at hmem
    dsimp only at hmem
    rcases List.mem_append.mp hmem with hAB | hC
    · rcases List.mem_append.mp hAB with hA | hB
      · rcases List.mem_map.mp hA with ⟨file, _, heq⟩
        have hk := congrArg Prod.fst heq
        have hp := congrArg Prod.snd heq
        dsimp only at hk hp
        rw [← hk, ← hp]
      · rcases List.mem_map.mp hB with ⟨file, _, heq⟩
        have hk := congrArg Prod.fst heq
        have hp := congrArg Prod.snd heq
        dsimp only at hk hp
        rw [← hk, ← hp]
    · rcases List.mem_map.mp hC with ⟨file, _, heq⟩
      have hk := congrArg Prod.fst heq
      have hp := congrArg Prod.snd heq
      dsimp only at hk hp
      rw [← hk, ← hp]
  · intro name content t u v hname ht hu hmem
    exact hasKey_of_file cfg n f name content fs t u v h1 h2 h3 h4
      hname ht hu hmem

/-- Claim C9 witness: at a dot-free root `/m`, the fingerprint `abc`
of the file `123.abc.host:2,S` is a key of the scan map and the map
has exactly one entry. -/
theorem maildir_scan_key_second_token_witness :
    (readMaildirMap { maildir := "/m", commonInbox := true } "" "INBOX"
      { cur := [("123.abc.host:2,S", "x")], new := [], tmp := [] }).length =
      1 ∧
    hasKey (readMaildirMap { maildir := "/m", commonInbox := true } ""
      "INBOX"
      { cur := [("123.abc.host:2,S", "x")], new := [], tmp := [] })
      (String.mk "abc".data) = true := by
  have h := maildir_scan_key_second_token
    { maildir := "/m", commonInbox := true } "" "INBOX"
    { cur := [("123.abc.host:2,S", "x")], new := [], tmp := [] }
    (by decide) (by decide) (by decide) (by decide)
  refine ⟨h.1, ?_⟩
  exact h.2.2 "123.abc.host:2,S" "x" "123".data "abc".data
    "host:2,S".data (by decide) (by decide) (by decide)
    (Or.inl (List.mem_singleton.mpr rfl))

/-- Claim C10 (confirmed): when the match equals no streamed
Message-ID, `Move` issues only the inbox select and the envelope
fetch — no store, copy or expunge — leaving the mailbox unchanged. -/
theorem move_no_match_readonly (folders mids : List String)
    (mtch folderName inboxF folderR : String)
    (h1 : imapFolder folders "inbox" = some inboxF)
    (h2 : imapFolder folders folderName = some folderR)
    (h3 : mtch ∉ mids) :
    moveCmds folders mids mtch folderName =
      some [ImapCmd.select inboxF, ImapCmd.fetch 1 mids.length] ∧
    (∀ cmds, moveCmds folders mids mtch folderName = some cmds →
      ∀ c ∈ cmds, isMutation c = false) := by
  have hm : moveCmds folders mids mtch folderName =
      some [ImapCmd.select inboxF, ImapCmd.fetch 1 mids.length] := by
    unfold moveCmds
    rw [h1, h2, moveScan_none mids mtch h3 1]
  refine ⟨hm, ?_⟩
  intro cmds hc c hmem
  rw [hm] at hc
  injection hc with hc
  subst hc
  rw [List.mem_cons, List.mem_singleton] at hmem
  rcases hmem with rfl | rfl <;> rfl

/-- Claim C10 witness: a concrete no-match `Move` run. -/
theorem move_no_match_readonly_witness :
    moveCmds ["INBOX"] ["<a@x>"] "<zz>" "Spam" =
      some [ImapCmd.select "INBOX", ImapCmd.fetch 1 1] :=
  (move_no_match_readonly ["INBOX"] ["<a@x>"] "<zz>" "Spam" "INBOX" "Spam"
    (by decide) (by decide) (by decide)).1

/-- Claim C8 (confirmed): a written message is named
`<ts>.<fingerprint>.<hostname>:2,<flagstring>` and appended to `cur/`,
except that with the Recent flag present the name is
`<ts>.<fingerprint>.<hostname>` with no suffix and the file goes to
`new/`; the flagstring is the source-order concatenation of Seen→S,
Answered→A, Junk→J with unknown flags dropped and default "S". -/
theorem maildir_filename_convention (hid host : String)
    (flags : List String) (ts : Nat) :
    (hasRecent flags = true →
      mailFileName hid flags host ts =
        (toString ts ++ "." ++ hid ++ "." ++ host, true)) ∧
    (hasRecent flags = false →
      mailFileName hid flags host ts =
        (toString ts ++ "." ++ hid ++ "." ++ host ++ ":2," ++
          specFlagString flags, false)) ∧
    (∀ (cfg : Cfg) (n f : String) (parsed : Option Mail)
        (fs : MaildirFolder),
      ((if (mailFileName hid flags host ts).2 then fs.new else fs.cur).any
        (fun p => p.1 = (mailFileName hid flags host ts).1)) = false →
      (hasRecent flags = true →
        writeMail cfg n f hid flags parsed host ts allOk fs =
          { fs with new := fs.new ++ [((mailFileName hid flags host ts).1,
              writeMailContent parsed allOk)] }) ∧
      (hasRecent flags = false →
        writeMail cfg n f hid flags parsed host ts allOk fs =
          { fs with cur := fs.cur ++ [((mailFileName hid flags host ts).1,
              writeMailContent parsed allOk)] })) := by
  refine ⟨fun h => mailFileName_recent hid host flags ts h,
    fun h => ?_, fun cfg n f parsed fs hfresh => ⟨fun h => ?_, fun h => ?_⟩⟩
  · rw [mailFileName_plain hid host flags ts h,
      writeFlag_eq_spec flags h]
  · have hm := mailFileName_recent hid host flags ts h
    rw [hm] at hfresh ⊢
    unfold writeMail
    rw [hm]
    dsimp only at hfresh ⊢
    simp only [if_true] at hfresh ⊢
    rw [if_neg (by rw [hfresh]; exact Bool.false_ne_true)]
    rw [if_neg (by decide)]
  · have hm := mailFileName_plain hid host flags ts h
    rw [hm] at hfresh ⊢
    unfold writeMail
    rw [hm]
    dsimp only at hfresh ⊢
    simp only [Bool.false_eq_true, if_false] at hfresh ⊢
    rw [if_neg (by rw [hfresh]; exact Bool.false_ne_true)]
    rw [if_neg (by decide)]

/-- Claim C8 witness: the convention at concrete flag lists — a
Recent message routes to `new/` with no suffix, and a
Seen+Answered+Junk+Deleted message yields the `cur/` name with
flagstring "SAJ" (Deleted dropped). -/
theorem maildir_filename_convention_witness :
    mailFileName "abc" ["\\Recent"] "host" 100 = ("100.abc.host", true) ∧
    mailFileName "abc" ["\\Seen", "\\Answered", "\\Junk", "\\Deleted"]
      "host" 100 = ("100.abc.host:2,SAJ", false) ∧
    mailFileName "abc" ["\\Deleted"] "host" 100 =
      ("100.abc.host:2,S", false) := by
  refine ⟨?_, ?_, ?_⟩
  · rw [(maildir_filename_convention "abc" "host" ["\\Recent"] 100).1
      (by decide)]
    decide
  · rw [(maildir_filename_convention "abc" "host"
      ["\\Seen", "\\Answered", "\\Junk", "\\Deleted"] 100).2.1 (by decide)]
    decide
  · rw [(maildir_filename_convention "abc" "host" ["\\Deleted"] 100).2.1
      (by decide)]
    decide

/-- Claim C1, counterexample: the delete decision of `Sync` never
consults the index.  With an empty index and an empty Maildir map, a
snapshot message is still put into the delete list, so the claimed
equivalence (index contains the fingerprint AND the Maildir map does
not) fails: its right-hand side is false while membership holds. -/
theorem sync_delete_ignores_index_cex :
    ¬(({ MessageId := "<a@x>", Imap := "s1", SeqNumber := 1,
         HashId := "h1" } : Message) ∈
        syncDeleteList
          [("s1", [{ MessageId := "<a@x>", Imap := "s1", SeqNumber := 1,
                     HashId := "h1" }])] [] ↔
      ((findRow ([] : List IndexRow) "h1").isSome = true ∧
        (mlookup [] "h1").isSome = false)) := by
  decide

/-- Claim C1 (amended): a snapshot message is a delete candidate
exactly when its fingerprint is not a key of the Maildir presence map
in effect; the index is not consulted, so a message absent from both
the Maildir and the index is still deleted. -/
theorem sync_delete_iff_absent_from_maildir
    (snaps : List (String × List Message))
    (mdict : List (String × String)) (m : Message) :
    m ∈ syncDeleteList snaps mdict ↔
      m ∈ (snaps.map Prod.snd).flatten ∧
        (mlookup mdict m.HashId).isSome = false := by
  unfold syncDeleteList
  rw [List.mem_filter]
  constructor
  · rintro ⟨hm, hp⟩
    exact ⟨hm, by simpa using hp⟩
  · rintro ⟨hm, hp⟩
    exact ⟨hm, by simpa using hp⟩

/-- Claim C2, counterexample: a fetch run that writes a Maildir file
leaves the index untouched, so the written file has no corresponding
index row (starting from an empty index): `insertMessage` is never
invoked by the pipeline. -/
theorem fetch_writes_file_without_index_row_cex :
    (imapSnapshot { maildir := "/m", commonInbox := true } "s1" "INBOX"
      false true
      [{ envelope := some ("<abc@x>", "s"), flags := ["\\Seen"],
         body := some { headers := [("Subject", ["s"])], body := "B" } }]
      "host" 100
      { fs := { cur := [], new := [], tmp := [] }, idx := [] }).st.fs.cur =
      [("100.8729b1870c5fc72e94c63cb48c48bf18.host:2,S",
        "Subject: s\nB")] ∧
    findRow (imapSnapshot { maildir := "/m", commonInbox := true } "s1"
      "INBOX" false true
      [{ envelope := some ("<abc@x>", "s"), flags := ["\\Seen"],
         body := some { headers := [("Subject", ["s"])], body := "B" } }]
      "host" 100
      { fs := { cur := [], new := [], tmp := [] }, idx := [] }).st.idx
      "8729b1870c5fc72e94c63cb48c48bf18" = none := by
  refine ⟨by decide, by decide⟩

/-- Claim C2 (amended): the fetch pipeline performs no index writes
at all: after any run the index equals the starting index, so a file
written by the run has an index row only if one already existed
before the run. -/
theorem fetch_run_leaves_index_unchanged (cfg : Cfg) (n f : String)
    (nm wc : Bool) (inbox : List ImapMsg) (host : String) (ts : Nat)
    (st : FetchState) :
    (imapSnapshot cfg n f nm wc inbox host ts st).st.idx = st.idx := by
  unfold imapSnapshot
  exact foldl_snapStep_idx cfg n f nm wc _ host ts inbox
    { seq := 1, msgs := [], st := st }

/-- Claim C3, counterexample: `Sync`'s per-server snapshot is a
single scope=all, envelopes-only call: its call trace contains no
scope=new call and no content-writing call, so no new messages are
downloaded before the delete set is computed. -/
theorem sync_no_fetch_new_cex :
    (syncRun { maildir := "/m", commonInbox := true } [("s1", [])]
      "host" 100
      { fs := { cur := [], new := [], tmp := [] }, idx := [] }).1 =
      [{ imapName := "s1", folder := "INBOX", newMessages := false,
         writeContent := false }] ∧
    ((syncRun { maildir := "/m", commonInbox := true } [("s1", [])]
      "host" 100
      { fs := { cur := [], new := [], tmp := [] }, idx := [] }).1.any
        (fun c => c.newMessages)) = false ∧
    ((syncRun { maildir := "/m", commonInbox := true } [("s1", [])]
      "host" 100
      { fs := { cur := [], new := [], tmp := [] }, idx := [] }).1.any
        (fun c => c.writeContent)) = false := by
  refine ⟨by decide, by decide, by decide⟩

/-- Claim C3 (amended): `Sync` performs exactly one envelopes-only
scope=all snapshot call per server on INBOX — no scope=new pass and
no downloads (an envelopes-only snapshot leaves the state untouched);
the delete list is computed from those scope=all results.  Fetching
new messages before a sync happens only in the separate `fullsync`
operation. -/
theorem sync_single_snapshot_per_server (cfg : Cfg)
    (servers : List (String × List ImapMsg)) (host : String) (ts : Nat)
    (st : FetchState) :
    (syncRun cfg servers host ts st).1 =
      servers.map (fun p =>
        { imapName := p.1, folder := "INBOX",
          newMessages := false, writeContent := false }) ∧
    (∀ (n : String) (inbox : List ImapMsg),
      (imapSnapshot cfg n "INBOX" false false inbox host ts st).st =
        st) := by
  refine ⟨rfl, fun n inbox => ?_⟩
  unfold imapSnapshot
  exact foldl_snapStep_readonly cfg n "INBOX" false _ host ts inbox
    { seq := 1, msgs := [], st := st }

/-- Claim C4, counterexample: a streamed message with an envelope but
an empty Message-ID is not dropped: the run writes a Maildir file for
it, with fingerprint md5 of the empty string. -/
theorem empty_message_id_still_written_cex :
    (imapSnapshot { maildir := "/m", commonInbox := true } "s1" "INBOX"
      false true
      [{ envelope := some ("", "s"), flags := [],
         body := some { headers := [("A", ["b"])], body := "B" } }]
      "host" 100
      { fs := { cur := [], new := [], tmp := [] }, idx := [] }).st.fs.cur =
      [("100.d41d8cd98f00b204e9800998ecf8427e.host:2,S", "A: b\nB")] := by
  decide

/-- Claim C4 (amended): only a nil message or nil envelope is dropped
(the step is the identity: no file, no index change, the rest of the
run proceeds); a message with an empty Message-ID is processed
normally with fingerprint `md5hash ""`, and a fingerprint is never
the empty string — it is always 32 characters. -/
theorem nil_envelope_skipped_fingerprint_nonempty (cfg : Cfg)
    (n f : String) (nm wc : Bool) (mdict : List (String × String))
    (host : String) (ts : Nat) (acc : SnapAcc) (msg : ImapMsg)
    (h : msg.envelope = none) :
    snapStep cfg n f nm wc mdict host ts acc msg = acc ∧
    (∀ s : String, (md5hash s).length = 32 ∧ md5hash s ≠ "") := by
  constructor
  · unfold snapStep
    rw [h]
  · exact fun s => ⟨md5hash_length s, md5hash_ne_empty s⟩

/-- Claim C4 witness: a concrete nil-envelope message is a no-op for
the pipeline, and the fingerprint of the empty Message-ID is 32
characters and non-empty. -/
theorem nil_envelope_skipped_fingerprint_nonempty_witness :
    snapStep { maildir := "/m", commonInbox := true } "s1" "INBOX" false
      true [] "host" 100
      { seq := 1, msgs := [],
        st := { fs := { cur := [], new := [], tmp := [] }, idx := [] } }
      { envelope := none, flags := [], body := none } =
      { seq := 1, msgs := [],
        st := { fs := { cur := [], new := [], tmp := [] }, idx := [] } } ∧
    (md5hash "").length = 32 ∧ md5hash "" ≠ "" := by
  have h := nil_envelope_skipped_fingerprint_nonempty
    { maildir := "/m", commonInbox := true } "s1" "INBOX" false true []
    "host" 100
    { seq := 1, msgs := [],
      st := { fs := { cur := [], new := [], tmp := [] }, idx := [] } }
    { envelope := none, flags := [], body := none } rfl
  exact ⟨h.1, (h.2 "").1, (h.2 "").2⟩

/-- Claim C7, counterexample: fetch-all twice is NOT idempotent in
general.  At the dotted maildir root `/m.dir`, the scan keys the file
written by the first run by the full-path token `dir/INBOX/cur/10`
instead of its fingerprint, so the second run's lookup misses, and
`writeMail`'s existence check only stats the new timestamp's name
`20.<fp>.host:2,S`: the identical second run writes a duplicate file
— two files in `cur/` where a single run leaves one. -/
theorem fetch_all_twice_duplicates_at_dotted_root_cex :
    ((imapSnapshot { maildir := "/m.dir", commonInbox := true } "s1"
      "INBOX" false true
      [{ envelope := some ("<abc@x>", "s"), flags := [],
         body := some { headers := [("A", ["b"])], body := "B" } }]
      "host" 20
      (imapSnapshot { maildir := "/m.dir", commonInbox := true } "s1"
        "INBOX" false true
        [{ envelope := some ("<abc@x>", "s"), flags := [],
           body := some { headers := [("A", ["b"])], body := "B" } }]
        "host" 10
        { fs := { cur := [], new := [], tmp := [] },
          idx := [] }).st).st.fs.cur).length = 2 ∧
    ((imapSnapshot { maildir := "/m.dir", commonInbox := true } "s1"
      "INBOX" false true
      [{ envelope := some ("<abc@x>", "s"), flags := [],
         body := some { headers := [("A", ["b"])], body := "B" } }]
      "host" 10
      { fs := { cur := [], new := [], tmp := [] },
        idx := [] }).st.fs.cur).length = 1 := by
  refine ⟨by decide, by decide⟩

/-- Claim C7 (amended): running fetch-all twice against the same
server and folder yields the same Maildir contents and the same index
state as running it once, provided the maildir root, server name and
folder name contain no `.` and the folder no `/` — the condition
under which the scan's full-path token 1 is the fingerprint.  Then on
the second run every message's fingerprint is already a key of the
folder's scan map (or the message has no envelope) and is skipped
without a new file or index row; and a write whose exact target path
already exists is a no-op. -/
theorem fetch_all_twice_idempotent (cfg : Cfg) (n f host : String)
    (inbox : List ImapMsg) (ts1 ts2 : Nat) (st0 : FetchState)
    (h1 : '.' ∉ cfg.maildir.data) (h2 : '.' ∉ n.data)
    (h3 : '.' ∉ f.data) (h4 : '/' ∉ f.data) :
    (imapSnapshot cfg n f false true inbox host ts2
      (imapSnapshot cfg n f false true inbox host ts1 st0).st).st =
      (imapSnapshot cfg n f false true inbox host ts1 st0).st ∧
    (∀ (hid : String) (flags : List String) (parsed : Option Mail)
        (ts : Nat) (o : WriteOutcome) (fs : MaildirFolder),
      ((if (mailFileName hid flags host ts).2 then fs.new else fs.cur).any
        (fun p => p.1 = (mailFileName hid flags host ts).1)) = true →
      writeMail cfg n f hid flags parsed host ts o fs = fs) := by
  constructor
  · have hkeys : ∀ msg ∈ inbox, ∀ mid sub,
        msg.envelope = some (mid, sub) →
        hasKey (dirEntries cfg n f
          ((imapSnapshot cfg n f false true inbox host ts1 st0).st.fs))
          (md5hash mid) = true := by
      intro msg hmem mid sub hsome
      unfold imapSnapshot
      simp only [if_true]
      exact foldl_snapStep_keys cfg n f false
        (readMaildirMap cfg n f st0.fs) host ts1 h1 h2 h3 h4 inbox
        { seq := 1, msgs := [], st := st0 } (fun k hk => hk) msg hmem
        mid sub hsome
    conv_lhs => unfold imapSnapshot
    simp only [if_true]
    apply foldl_snapStep_skip
    intro msg hmem
    unfold snapSkip
    rcases hme : msg.envelope with _ | ⟨mid, sub⟩
    · trivial
    · dsimp only
      rw [mlookup_isSome]
      exact hkeys msg hmem mid sub hme
  · intro hid flags parsed ts o fs hex
    unfold writeMail
    dsimp only
    rw [if_pos hex]

/-- Claim C7 witness: a concrete two-run fetch over one message from
an empty Maildir, and a concrete no-op write at an existing target. -/
theorem fetch_all_twice_idempotent_witness :
    (imapSnapshot { maildir := "/m", commonInbox := true } "s1" "INBOX"
      false true
      [{ envelope := some ("<abc@x>", "s"), flags := [],
         body := some { headers := [("A", ["b"])], body := "B" } }]
      "host" 20
      (imapSnapshot { maildir := "/m", commonInbox := true } "s1" "INBOX"
        false true
        [{ envelope := some ("<abc@x>", "s"), flags := [],
           body := some { headers := [("A", ["b"])], body := "B" } }]
        "host" 10
        { fs := { cur := [], new := [], tmp := [] }, idx := [] }).st).st =
      (imapSnapshot { maildir := "/m", commonInbox := true } "s1" "INBOX"
        false true
        [{ envelope := some ("<abc@x>", "s"), flags := [],
           body := some { headers := [("A", ["b"])], body := "B" } }]
        "host" 10
        { fs := { cur := [], new := [], tmp := [] }, idx := [] }).st ∧
    writeMail { maildir := "/m", commonInbox := true } "s1" "INBOX" "abc"
      [] none "host" 100 allOk
      { cur := [("100.abc.host:2,S", "x")], new := [], tmp := [] } =
      { cur := [("100.abc.host:2,S", "x")], new := [], tmp := [] } := by
  have h := fetch_all_twice_idempotent
    { maildir := "/m", commonInbox := true } "s1" "INBOX" "host"
    [{ envelope := some ("<abc@x>", "s"), flags := [],
       body := some { headers := [("A", ["b"])], body := "B" } }]
    10 20 { fs := { cur := [], new := [], tmp := [] }, idx := [] }
    (by decide) (by decide) (by decide) (by decide)
  exact ⟨h.1, h.2 "abc" [] none 100 allOk
    { cur := [("100.abc.host:2,S", "x")], new := [], tmp := [] }
    (by decide)⟩

end Goimapsync
